import Mathlib

/-!
Verification of the `dataset` module of rte-france/learning-lp
(`src_python/dataset.py`).

The module stores pairs of parallel numeric arrays: a list of RHS vectors of
a linear optimisation problem and the list of the corresponding objective
values.  We embed the container and its operations shallowly: numeric values
become rationals, numpy arrays become lists, Python exceptions become an
explicit error type, and the random index choice made by `np.random.choice`
inside `dataset.cut` becomes an explicit parameter, so that properties can be
proved for every possible random choice.
-/

namespace LearningLP

/-- Python exceptions that the embedded code can raise: `IndexError` from an
out-of-range array access, `AssertionError` from a failed `assert`, and
`ValueError` from `float()` applied to a non-numeric string. -/
inductive PyError
  | indexError
  | assertionError
  | valueError
  deriving DecidableEq, Repr

/-- A `dataset` instance from `dataset.py`: the parallel arrays
`self.RHS.content` (one row per sample) and `self.solutions.content`
(one scalar per sample). -/
structure Dataset where
  RHS : List (List ℚ)
  sols : List ℚ
  deriving DecidableEq, Repr

/-- Sample count, `dataset.size()`: the length of the RHS array
(`self.RHS.size()`). -/
def Dataset.size (D : Dataset) : ℕ := D.RHS.length

/-- The invariant asserted by `dataset.__init__`:
`self.solutions.size() == self.RHS.size()`. -/
def datasetInv (D : Dataset) : Prop := D.sols.length = D.RHS.length

instance (D : Dataset) : Decidable (datasetInv D) :=
  inferInstanceAs (Decidable (D.sols.length = D.RHS.length))

/-- Constructor `dataset.__init__(RHS_list, solutions_list)`: wraps the two
lists and asserts that their sizes agree, raising `AssertionError` otherwise. -/
def mkDataset (R : List (List ℚ)) (S : List ℚ) : Except PyError Dataset :=
  if S.length = R.length then .ok ⟨R, S⟩ else .error .assertionError

/-- Method `dataset.copy()`: `dataset(np.copy(self.get_RHS()),
np.copy(self.get_solutions()))`; a value copy of both arrays. -/
def Dataset.copy (D : Dataset) : Dataset := ⟨D.RHS, D.sols⟩

/-- Method `dataset.set_RHS(new_RHS)`: asserts `len(new_RHS) == self.size()`
and replaces the RHS array. -/
def Dataset.setRHS (D : Dataset) (R : List (List ℚ)) : Except PyError Dataset :=
  if R.length = D.size then .ok ⟨R, D.sols⟩ else .error .assertionError

/-- Method `dataset.set_solutions(new_solutions)`: asserts
`len(new_solutions) == self.size()` and replaces the solutions array. -/
def Dataset.setSols (D : Dataset) (S : List ℚ) : Except PyError Dataset :=
  if S.length = D.size then .ok ⟨D.RHS, S⟩ else .error .assertionError

/-- Method `dataset.merge(other_dataset)`.  Python evaluates
`len(other_dataset.get_RHS()[0])` first, so an empty `other` raises
`IndexError`; then `len(self.get_RHS()[0])`, so an empty `self` raises
`IndexError`; the `assert` compares the two first-row lengths and raises
`AssertionError` on mismatch; finally the concatenated arrays are passed back
through `__init__`, whose size assertion is re-checked. -/
def Dataset.merge (A B : Dataset) : Except PyError Dataset :=
  match B.RHS.head? with
  | none => .error .indexError
  | some rB =>
    match A.RHS.head? with
    | none => .error .indexError
    | some rA =>
      if rB.length = rA.length then
        if (A.sols ++ B.sols).length = (A.RHS ++ B.RHS).length then
          .ok ⟨A.RHS ++ B.RHS, A.sols ++ B.sols⟩
        else .error .assertionError
      else .error .assertionError

/-- Paired samples of a dataset: row `i` of the RHS array together with
solution `i`, exactly the pairs read side by side by the loop in
`dataset.cut` (`initial_RHS_array[i]`, `initial_solutions_array[i]`). -/
def Dataset.pairs (D : Dataset) : List (List ℚ × ℚ) := D.RHS.zip D.sols

/-- Value `number_to_cut = int(proportion_to_cut * size)` from `dataset.cut`,
taken under exact rational arithmetic; for a non-negative product, Python
`int()` truncation is the floor. -/
def numberToCut (p : ℚ) (n : ℕ) : ℕ := (Int.floor (p * (n : ℚ))).toNat

/-- A possible value of `index_to_cut = np.random.choice(size, number_to_cut,
replace=False)` in `dataset.cut`: `number_to_cut` distinct indices, each
below `size`. -/
def validChoice (n : ℕ) (p : ℚ) (idx : List ℕ) : Prop :=
  idx.Nodup ∧ idx.length = numberToCut p n ∧ ∀ i ∈ idx, i < n

instance (n : ℕ) (p : ℚ) (idx : List ℕ) : Decidable (validChoice n p idx) :=
  inferInstanceAs
    (Decidable (idx.Nodup ∧ idx.length = numberToCut p n ∧ ∀ i ∈ idx, i < n))

/-- Samples appended to `RHS_to_cut` / `solutions_to_cut` by the loop of
`dataset.cut`: the loop walks `i = 0, ..., size-1` in increasing order and
takes row `i` exactly when `list_to_cut_bool[i]` is `True`, that is, when `i`
was drawn into `index_to_cut`. -/
def cutPairs (D : Dataset) (idx : List ℕ) : List (List ℚ × ℚ) :=
  (D.pairs.enum.filter fun q => decide (q.1 ∈ idx)).map Prod.snd

/-- Samples appended to `RHS_to_keep` / `solutions_to_keep` by the same loop:
the rows whose index was not drawn, again in increasing index order. -/
def keepPairs (D : Dataset) (idx : List ℕ) : List (List ℚ × ℚ) :=
  (D.pairs.enum.filter fun q => !decide (q.1 ∈ idx)).map Prod.snd

/-- Method `dataset.cut(proportion_to_cut)` with the random draw
`index_to_cut` made an explicit argument.  Marking the drawn indices in the
boolean mask `list_to_cut_bool` raises `IndexError` when a drawn index is out
of range; otherwise `self` is rebuilt from the keep lists and a new dataset
is built from the cut lists.  The result models the pair
`(self after the call, returned dataset)`. -/
def cutIdx (D : Dataset) (idx : List ℕ) : Except PyError (Dataset × Dataset) :=
  if ∀ i ∈ idx, i < D.size then
    .ok (⟨(keepPairs D idx).map Prod.fst, (keepPairs D idx).map Prod.snd⟩,
      ⟨(cutPairs D idx).map Prod.fst, (cutPairs D idx).map Prod.snd⟩)
  else .error .indexError

lemma cutIdx_ok_elim {D : Dataset} {idx : List ℕ} {kept cutRes : Dataset}
    (h : cutIdx D idx = .ok (kept, cutRes)) :
    kept = ⟨(keepPairs D idx).map Prod.fst, (keepPairs D idx).map Prod.snd⟩ ∧
      cutRes = ⟨(cutPairs D idx).map Prod.fst, (cutPairs D idx).map Prod.snd⟩ := by
  unfold cutIdx at h
  split at h
  · rcases h with ⟨⟩
    exact ⟨rfl, rfl⟩
  · cases h

lemma map_fst_zip_sublist :
    ∀ (l₁ : List (List ℚ)) (l₂ : List ℚ), List.Sublist ((l₁.zip l₂).map Prod.fst) l₁
  | [], _ => by simp
  | _ :: _, [] => by simp
  | a :: as, b :: bs => by
    simpa using (map_fst_zip_sublist as bs).cons₂ a

lemma map_snd_zip_sublist :
    ∀ (l₁ : List (List ℚ)) (l₂ : List ℚ), List.Sublist ((l₁.zip l₂).map Prod.snd) l₂
  | [], _ => by simp
  | _ :: _, [] => by simp
  | a :: as, b :: bs => by
    simpa using (map_snd_zip_sublist as bs).cons₂ b

lemma enum_map_snd (l : List (List ℚ × ℚ)) : l.enum.map Prod.snd = l :=
  List.enumFrom_map_snd 0 l

lemma cutPairs_sublist_pairs (D : Dataset) (idx : List ℕ) :
    List.Sublist (cutPairs D idx) D.pairs := by
  have h1 : List.Sublist (cutPairs D idx) (D.pairs.enum.map Prod.snd) :=
    (List.filter_sublist D.pairs.enum).map Prod.snd
  rwa [enum_map_snd] at h1

lemma keepPairs_sublist_pairs (D : Dataset) (idx : List ℕ) :
    List.Sublist (keepPairs D idx) D.pairs := by
  have h1 : List.Sublist (keepPairs D idx) (D.pairs.enum.map Prod.snd) :=
    (List.filter_sublist D.pairs.enum).map Prod.snd
  rwa [enum_map_snd] at h1

lemma cutIdx_sublist {D : Dataset} {idx : List ℕ} {kept cutRes : Dataset}
    (h : cutIdx D idx = .ok (kept, cutRes)) :
    List.Sublist cutRes.RHS D.RHS ∧ List.Sublist cutRes.sols D.sols ∧
      List.Sublist kept.RHS D.RHS ∧ List.Sublist kept.sols D.sols := by
  obtain ⟨hk, hc⟩ := cutIdx_ok_elim h
  subst hk hc
  refine ⟨?_, ?_, ?_, ?_⟩
  · exact (((cutPairs_sublist_pairs D idx).map Prod.fst).trans
      (map_fst_zip_sublist D.RHS D.sols))
  · exact (((cutPairs_sublist_pairs D idx).map Prod.snd).trans
      (map_snd_zip_sublist D.RHS D.sols))
  · exact (((keepPairs_sublist_pairs D idx).map Prod.fst).trans
      (map_fst_zip_sublist D.RHS D.sols))
  · exact (((keepPairs_sublist_pairs D idx).map Prod.snd).trans
      (map_snd_zip_sublist D.RHS D.sols))

lemma unzip_zip_pairs (P : List (List ℚ × ℚ)) :
    Dataset.pairs ⟨P.map Prod.fst, P.map Prod.snd⟩ = P :=
  (List.zip_of_prod rfl rfl).symm

lemma keep_append_cut_perm (D : Dataset) (idx : List ℕ) :
    (keepPairs D idx ++ cutPairs D idx).Perm D.pairs := by
  have h1 := List.filter_append_perm
    (fun q : ℕ × (List ℚ × ℚ) => !decide (q.1 ∈ idx)) D.pairs.enum
  simp only [Bool.not_not] at h1
  have h2 := h1.map Prod.snd
  rw [List.map_append, enum_map_snd] at h2
  exact h2

/-- C1: for every dataset, every proportion `p` with `0 ≤ p ≤ 1`, and every
possible random draw of indices, `cut` partitions the original samples: the
returned dataset holds exactly the samples at the drawn indices, the mutated
original holds exactly the samples at the remaining indices (so no sample
occurrence lands on both sides), the two sides together have the original
sample count, and the multiset union of the two sides' (RHS row, solution)
pairs is the original dataset's pairs. -/
theorem C1_cut_partitions (D : Dataset) (p : ℚ) (idx : List ℕ)
    (kept cutRes : Dataset) (hp : 0 ≤ p ∧ p ≤ 1) (hinv : datasetInv D)
    (hchoice : validChoice D.size p idx)
    (h : cutIdx D idx = .ok (kept, cutRes)) :
    cutRes.pairs = (D.pairs.enum.filter fun q => decide (q.1 ∈ idx)).map Prod.snd ∧
      kept.pairs = (D.pairs.enum.filter fun q => !decide (q.1 ∈ idx)).map Prod.snd ∧
      kept.size + cutRes.size = D.size ∧
      (kept.pairs ++ cutRes.pairs).Perm D.pairs := by
  obtain ⟨hk, hc⟩ := cutIdx_ok_elim h
  subst hk hc
  refine ⟨unzip_zip_pairs _, unzip_zip_pairs _, ?_, ?_⟩
  · show ((keepPairs D idx).map Prod.fst).length +
      ((cutPairs D idx).map Prod.fst).length = D.size
    have hperm := (keep_append_cut_perm D idx).length_eq
    rw [List.length_append] at hperm
    have hpl : D.pairs.length = D.size := by
      unfold Dataset.pairs Dataset.size
      rw [List.length_zip, hinv, Nat.min_self]
    simp only [List.length_map]
    omega
  · rw [unzip_zip_pairs, unzip_zip_pairs]
    exact keep_append_cut_perm D idx

theorem C1_witness :
    ((0 : ℚ) ≤ 2/3 ∧ (2/3 : ℚ) ≤ 1) ∧
      datasetInv (Dataset.mk [[1], [2], [3]] [10, 20, 30]) ∧
      validChoice (Dataset.mk [[(1 : ℚ)], [2], [3]] [10, 20, 30]).size (2/3) [2, 0] ∧
      cutIdx (Dataset.mk [[(1 : ℚ)], [2], [3]] [10, 20, 30]) [2, 0] =
        .ok (Dataset.mk [[2]] [20], Dataset.mk [[1], [3]] [10, 30]) ∧
      (Dataset.mk [[(2 : ℚ)]] [20]).size + (Dataset.mk [[(1 : ℚ)], [3]] [10, 30]).size =
        (Dataset.mk [[(1 : ℚ)], [2], [3]] [10, 20, 30]).size ∧
      ((Dataset.mk [[(2 : ℚ)]] [20]).pairs ++
          (Dataset.mk [[(1 : ℚ)], [3]] [10, 30]).pairs).Perm
        (Dataset.mk [[(1 : ℚ)], [2], [3]] [10, 20, 30]).pairs := by
  have hvc : validChoice (Dataset.mk [[(1 : ℚ)], [2], [3]] [10, 20, 30]).size
      (2/3) [2, 0] := by
    refine ⟨by decide, ?_, by decide⟩
    show [2, 0].length = numberToCut (2/3) 3
    unfold numberToCut
    norm_num
    rfl
  have h := C1_cut_partitions (Dataset.mk [[(1 : ℚ)], [2], [3]] [10, 20, 30])
    (2/3) [2, 0] (Dataset.mk [[2]] [20]) (Dataset.mk [[1], [3]] [10, 30])
    (by constructor <;> norm_num) (by decide) hvc (by rfl)
  exact ⟨by constructor <;> norm_num, by decide, hvc, rfl,
    h.2.2.1, h.2.2.2⟩

lemma cutIdx_ok_cond {D : Dataset} {idx : List ℕ} {x : Dataset × Dataset}
    (h : cutIdx D idx = .ok x) : ∀ i ∈ idx, i < D.size := by
  by_cases hcond : ∀ i ∈ idx, i < D.size
  · exact hcond
  · unfold cutIdx at h
    rw [if_neg hcond] at h
    cases h

/-- C5 (counterexample): on the concrete three-sample dataset there is no
random index choice under which the dataset returned by `cut` holds its rows
out of the original relative order; the existence asserted by the claim is
false. -/
theorem C5_counterexample :
    ¬ ∃ idx : List ℕ, idx.Nodup ∧
      (∀ i ∈ idx, i < (Dataset.mk [[(1 : ℚ)], [2], [3]] [10, 20, 30]).size) ∧
      ∃ kept cutRes : Dataset,
        cutIdx (Dataset.mk [[(1 : ℚ)], [2], [3]] [10, 20, 30]) idx =
          .ok (kept, cutRes) ∧
        ¬ List.Sublist cutRes.RHS
          (Dataset.mk [[(1 : ℚ)], [2], [3]] [10, 20, 30]).RHS := by
  rintro ⟨idx, -, -, kept, cutRes, hok, hnot⟩
  exact hnot (cutIdx_sublist hok).1

/-- C5 (amended): the dataset returned by `cut` holds its rows in the
original dataset's relative order for every random index choice, because the
loop in `dataset.cut` walks the row indices in increasing order and consults
only the boolean mask; consequently the returned dataset does not depend on
the order in which the indices were sampled, only on which indices were
sampled. -/
theorem C5_cut_order_independent (D : Dataset) (idx idx2 : List ℕ)
    (kept cutRes : Dataset) (h : cutIdx D idx = .ok (kept, cutRes)) :
    List.Sublist cutRes.RHS D.RHS ∧ List.Sublist cutRes.sols D.sols ∧
      ((∀ i, i ∈ idx ↔ i ∈ idx2) → cutIdx D idx2 = .ok (kept, cutRes)) := by
  obtain ⟨hsub1, hsub2, -, -⟩ := cutIdx_sublist h
  refine ⟨hsub1, hsub2, fun hmem => ?_⟩
  obtain ⟨hk, hc⟩ := cutIdx_ok_elim h
  have hcond : ∀ i ∈ idx, i < D.size := cutIdx_ok_cond h
  have hcond2 : ∀ i ∈ idx2, i < D.size := fun i hi => hcond i ((hmem i).mpr hi)
  have hcp : cutPairs D idx2 = cutPairs D idx := by
    unfold cutPairs
    refine congrArg _ (List.filter_congr fun a _ => ?_)
    exact decide_eq_decide.mpr (hmem a.1).symm
  have hkp : keepPairs D idx2 = keepPairs D idx := by
    unfold keepPairs
    refine congrArg _ (List.filter_congr fun a _ => ?_)
    exact congrArg (fun b => !b) (decide_eq_decide.mpr (hmem a.1).symm)
  unfold cutIdx
  rw [if_pos hcond2, hcp, hkp, hk, hc]

theorem C5_cut_order_independent_witness :
    cutIdx (Dataset.mk [[(1 : ℚ)], [2], [3]] [10, 20, 30]) [2, 0] =
      .ok (Dataset.mk [[2]] [20], Dataset.mk [[1], [3]] [10, 30]) ∧
      List.Sublist (Dataset.mk [[(1 : ℚ)], [3]] [10, 30]).RHS
        (Dataset.mk [[(1 : ℚ)], [2], [3]] [10, 20, 30]).RHS ∧
      (∀ i, i ∈ ([2, 0] : List ℕ) ↔ i ∈ ([0, 2] : List ℕ)) ∧
      cutIdx (Dataset.mk [[(1 : ℚ)], [2], [3]] [10, 20, 30]) [0, 2] =
        .ok (Dataset.mk [[2]] [20], Dataset.mk [[1], [3]] [10, 30]) := by
  have hmem : ∀ i, i ∈ ([2, 0] : List ℕ) ↔ i ∈ ([0, 2] : List ℕ) := by
    intro i
    simp [or_comm]
  have h := C5_cut_order_independent
    (Dataset.mk [[(1 : ℚ)], [2], [3]] [10, 20, 30]) [2, 0] [0, 2]
    (Dataset.mk [[2]] [20]) (Dataset.mk [[1], [3]] [10, 30]) rfl
  exact ⟨rfl, h.1, hmem, h.2.2 hmem⟩

/-- C3: for nonempty datasets `A` and `B` whose RHS dimensions match,
`A.merge(B)` yields a dataset with `size(A) + size(B)` rows whose first
`size(A)` RHS rows and solutions are exactly `A`'s in their original order
and whose remaining rows are exactly `B`'s in `B`'s order; `B`, which the
code only reads, is left unmodified. -/
theorem C3_merge_concatenates (A B M : Dataset) (rA rB : List ℚ)
    (tA tB : List (List ℚ)) (hinvA : datasetInv A) (hinvB : datasetInv B)
    (hA : A.RHS = rA :: tA) (hB : B.RHS = rB :: tB)
    (hdim : rA.length = rB.length) (h : A.merge B = .ok M) :
    M.size = A.size + B.size ∧
      M.RHS.take A.size = A.RHS ∧ M.RHS.drop A.size = B.RHS ∧
      M.sols.take A.size = A.sols ∧ M.sols.drop A.size = B.sols := by
  have hM : M = ⟨A.RHS ++ B.RHS, A.sols ++ B.sols⟩ := by
    unfold Dataset.merge at h
    rw [hA, hB] at h
    simp only [List.head?_cons] at h
    rw [if_pos hdim.symm] at h
    rw [if_pos] at h
    · rw [← hA, ← hB] at h
      cases h
      rfl
    · rw [← hA, ← hB]
      have h1 : A.sols.length = A.RHS.length := hinvA
      have h2 : B.sols.length = B.RHS.length := hinvB
      simp [List.length_append, h1, h2]
  subst hM
  refine ⟨?_, ?_, ?_, ?_, ?_⟩
  · simp [Dataset.size, List.length_append]
  · exact List.take_left A.RHS B.RHS
  · exact List.drop_left A.RHS B.RHS
  · exact List.take_left' hinvA
  · exact List.drop_left' hinvA

theorem C3_merge_concatenates_witness :
    datasetInv (Dataset.mk [[(1 : ℚ)], [2]] [10, 20]) ∧
      datasetInv (Dataset.mk [[(3 : ℚ)]] [30]) ∧
      (Dataset.mk [[(1 : ℚ)], [2]] [10, 20]).RHS = [(1 : ℚ)] :: [[2]] ∧
      (Dataset.mk [[(3 : ℚ)]] [30]).RHS = [(3 : ℚ)] :: [] ∧
      [(1 : ℚ)].length = [(3 : ℚ)].length ∧
      (Dataset.mk [[(1 : ℚ)], [2]] [10, 20]).merge (Dataset.mk [[3]] [30]) =
        .ok (Dataset.mk [[1], [2], [3]] [10, 20, 30]) ∧
      (Dataset.mk [[(1 : ℚ)], [2], [3]] [10, 20, 30]).size =
        (Dataset.mk [[(1 : ℚ)], [2]] [10, 20]).size +
          (Dataset.mk [[(3 : ℚ)]] [30]).size ∧
      (Dataset.mk [[(1 : ℚ)], [2], [3]] [10, 20, 30]).RHS.take
          (Dataset.mk [[(1 : ℚ)], [2]] [10, 20]).size =
        (Dataset.mk [[(1 : ℚ)], [2]] [10, 20]).RHS ∧
      (Dataset.mk [[(1 : ℚ)], [2], [3]] [10, 20, 30]).RHS.drop
          (Dataset.mk [[(1 : ℚ)], [2]] [10, 20]).size =
        (Dataset.mk [[(3 : ℚ)]] [30]).RHS := by
  have h := C3_merge_concatenates (Dataset.mk [[(1 : ℚ)], [2]] [10, 20])
    (Dataset.mk [[3]] [30]) (Dataset.mk [[1], [2], [3]] [10, 20, 30])
    [(1 : ℚ)] [(3 : ℚ)] [[2]] [] (by decide) (by decide) rfl rfl (by decide) rfl
  exact ⟨by decide, by decide, rfl, rfl, by decide, rfl, h.1, h.2.1, h.2.2.1⟩

/-- C2: the invariant `len(RHS) == len(solutions)` holds for every dataset
produced by the constructor and is preserved by every operation that creates
or mutates a dataset: both results of `cut`, the result of `merge`, `copy`,
`set_RHS` and `set_solutions`. -/
theorem C2_invariant_preserved (R R2 : List (List ℚ)) (S S2 : List ℚ)
    (E A B M K T D1 D2 : Dataset) (idx : List ℕ) :
    (mkDataset R S = .ok E → datasetInv E) ∧
      (datasetInv A → cutIdx A idx = .ok (K, T) → datasetInv K ∧ datasetInv T) ∧
      (datasetInv A → datasetInv B → A.merge B = .ok M → datasetInv M) ∧
      (datasetInv A → datasetInv A.copy) ∧
      (A.setRHS R2 = .ok D1 → datasetInv A → datasetInv D1) ∧
      (A.setSols S2 = .ok D2 → datasetInv A → datasetInv D2) := by
  refine ⟨?_, ?_, ?_, ?_, ?_, ?_⟩
  · intro h
    unfold mkDataset at h
    by_cases hc : S.length = R.length
    · rw [if_pos hc] at h
      cases h
      exact hc
    · rw [if_neg hc] at h
      cases h
  · intro _ h
    obtain ⟨hk, ht⟩ := cutIdx_ok_elim h
    subst hk ht
    constructor <;> simp [datasetInv]
  · intro _ _ h
    unfold Dataset.merge at h
    cases hB : B.RHS with
    | nil =>
      rw [hB] at h
      cases h
    | cons rB tB =>
      rw [hB] at h
      cases hA : A.RHS with
      | nil =>
        rw [hA] at h
        cases h
      | cons rA tA =>
        rw [hA] at h
        simp only [List.head?_cons] at h
        by_cases hdim : rB.length = rA.length
        · rw [if_pos hdim] at h
          by_cases hlen : (A.sols ++ B.sols).length =
            ((rA :: tA) ++ (rB :: tB)).length
          · rw [if_pos hlen] at h
            cases h
            exact hlen
          · rw [if_neg hlen] at h
            cases h
        · rw [if_neg hdim] at h
          cases h
  · intro h
    exact h
  · intro h hinv
    unfold Dataset.setRHS at h
    by_cases hc : R2.length = A.size
    · rw [if_pos hc] at h
      cases h
      exact hinv.trans hc.symm
    · rw [if_neg hc] at h
      cases h
  · intro h _
    unfold Dataset.setSols at h
    by_cases hc : S2.length = A.size
    · rw [if_pos hc] at h
      cases h
      exact hc
    · rw [if_neg hc] at h
      cases h

theorem C2_invariant_preserved_witness :
    mkDataset [[(1 : ℚ)]] [10] = .ok (Dataset.mk [[1]] [10]) ∧
      datasetInv (Dataset.mk [[(1 : ℚ)]] [10]) ∧
      datasetInv (Dataset.mk [[(1 : ℚ)], [2]] [10, 20]) ∧
      datasetInv (Dataset.mk [[(3 : ℚ)]] [30]) ∧
      cutIdx (Dataset.mk [[(1 : ℚ)], [2]] [10, 20]) [0] =
        .ok (Dataset.mk [[2]] [20], Dataset.mk [[1]] [10]) ∧
      datasetInv (Dataset.mk [[(2 : ℚ)]] [20]) ∧
      datasetInv (Dataset.mk [[(1 : ℚ)]] [10]) ∧
      (Dataset.mk [[(1 : ℚ)], [2]] [10, 20]).merge (Dataset.mk [[3]] [30]) =
        .ok (Dataset.mk [[1], [2], [3]] [10, 20, 30]) ∧
      datasetInv (Dataset.mk [[(1 : ℚ)], [2], [3]] [10, 20, 30]) ∧
      datasetInv (Dataset.mk [[(1 : ℚ)], [2]] [10, 20]).copy ∧
      (Dataset.mk [[(1 : ℚ)], [2]] [10, 20]).setRHS [[5], [6]] =
        .ok (Dataset.mk [[5], [6]] [10, 20]) ∧
      datasetInv (Dataset.mk [[(5 : ℚ)], [6]] [10, 20]) ∧
      (Dataset.mk [[(1 : ℚ)], [2]] [10, 20]).setSols [7, 8] =
        .ok (Dataset.mk [[1], [2]] [7, 8]) ∧
      datasetInv (Dataset.mk [[(1 : ℚ)], [2]] [7, 8]) := by
  have h := C2_invariant_preserved [[(1 : ℚ)]] [[5], [6]] [10] [7, 8]
    (Dataset.mk [[1]] [10]) (Dataset.mk [[1], [2]] [10, 20])
    (Dataset.mk [[3]] [30]) (Dataset.mk [[1], [2], [3]] [10, 20, 30])
    (Dataset.mk [[2]] [20]) (Dataset.mk [[1]] [10])
    (Dataset.mk [[5], [6]] [10, 20]) (Dataset.mk [[1], [2]] [7, 8]) [0]
  exact ⟨rfl, h.1 rfl, by decide, by decide, rfl,
    (h.2.1 (by decide) rfl).1, (h.2.1 (by decide) rfl).2, rfl,
    h.2.2.1 (by decide) (by decide) rfl, h.2.2.2.1 (by decide), rfl,
    h.2.2.2.2.1 rfl (by decide), rfl, h.2.2.2.2.2 rfl (by decide)⟩

/-- C8: for all input lists `R` and `S` with `len(R) != len(S)`, constructing a
dataset fails with the `AssertionError` of `dataset.__init__` ("RHS and
solutions do not have the same size") and no dataset is produced. -/
theorem C8_mk_length_mismatch (R : List (List ℚ)) (S : List ℚ)
    (h : R.length ≠ S.length) : mkDataset R S = .error .assertionError := by
  unfold mkDataset
  rw [if_neg]
  exact fun hc => h hc.symm

theorem C8_witness :
    [[(1 : ℚ), 2]].length ≠ [(10 : ℚ), 20].length ∧
      mkDataset [[(1 : ℚ), 2]] [10, 20] = .error .assertionError :=
  ⟨by decide, C8_mk_length_mismatch _ _ (by decide)⟩

/-- C9: merging two datasets whose RHS row dimensions differ fails with the
dimension `AssertionError` ("Bound vectors do not have the same size") and no
concatenation is performed. -/
theorem C9_merge_dim_mismatch (A B : Dataset) (rA rB : List ℚ)
    (tA tB : List (List ℚ)) (hA : A.RHS = rA :: tA) (hB : B.RHS = rB :: tB)
    (hdim : rA.length ≠ rB.length) : A.merge B = .error .assertionError := by
  unfold Dataset.merge
  rw [hA, hB]
  simp only [List.head?_cons]
  rw [if_neg]
  exact fun hc => hdim hc.symm

theorem C9_merge_dim_mismatch_witness :
    (Dataset.mk [[1, 2]] [10]).RHS = [(1 : ℚ), 2] :: [] ∧
      (Dataset.mk [[1, 2, 3]] [20]).RHS = [(1 : ℚ), 2, 3] :: [] ∧
      [(1 : ℚ), 2].length ≠ [(1 : ℚ), 2, 3].length ∧
      (Dataset.mk [[1, 2]] [10]).merge (Dataset.mk [[1, 2, 3]] [20]) =
        .error .assertionError :=
  ⟨rfl, rfl, by decide,
    C9_merge_dim_mismatch _ _ _ _ _ _ rfl rfl (by decide)⟩

/-- C10: if either dataset involved in `merge` has zero samples, the access to
the first RHS row in the dimensionality check raises `IndexError` before any
concatenation is attempted and before `self` is rebuilt, so `self` is left
unmodified; the dimension-match `assert` is only reached when both datasets
are non-empty. -/
theorem C10_merge_empty_indexError (A B : Dataset)
    (h : A.RHS = [] ∨ B.RHS = []) : A.merge B = .error .indexError := by
  unfold Dataset.merge
  rcases h with h | h
  · rw [h]
    cases hB : B.RHS with
    | nil => rfl
    | cons rB tB => rfl
  · rw [h]
    rfl

theorem C10_merge_empty_indexError_witness :
    ((Dataset.mk [] []).RHS = [] ∨ (Dataset.mk [[1]] [10]).RHS = []) ∧
      (Dataset.mk [] []).merge (Dataset.mk [[(1 : ℚ)]] [10]) =
        .error .indexError ∧
      (Dataset.mk [[(1 : ℚ)]] [10]).merge (Dataset.mk [] []) =
        .error .indexError :=
  ⟨Or.inl rfl,
    C10_merge_empty_indexError _ _ (Or.inl rfl),
    C10_merge_empty_indexError _ _ (Or.inr rfl)⟩

/-- Decimal digit characters of a natural number, most significant first,
with enough fuel to terminate structurally. -/
def natDigits : ℕ → ℕ → List Char
  | _, 0 => []
  | n, fuel + 1 =>
    if n < 10 then [Char.ofNat (48 + n)]
    else natDigits (n / 10) fuel ++ [Char.ofNat (48 + n % 10)]

/-- Fractional decimal digits of `rem / den` by long division, stopping at
remainder zero and truncating after `fuel` digits. -/
def fracDigits (den : ℕ) : ℕ → ℕ → List ℕ
  | _, 0 => []
  | rem, fuel + 1 =>
    if rem = 0 then []
    else rem * 10 / den :: fracDigits den (rem * 10 % den) fuel

/-- Model of the string Python `str()` produces for the float holding a
decimally-representable rational, the form in which `csv.writer` writes each
cell: optional sign, integer digits, a dot, and the fractional digits with at
least one digit after the dot (`"1.0"`, `"0.5"`, `"10.0"`).  A value whose
denominator is not a power of ten would print in Python as the shortest
round-tripping decimal of the nearest double; no claim serialises such a
value, and for them this model truncates to 17 fractional digits. -/
def ratStr (q : ℚ) : String :=
  let sign := if q < 0 then "-" else ""
  let na := q.num.natAbs
  let ip := na / q.den
  let rem := na % q.den
  let fd0 := fracDigits q.den rem 17
  let fd := if fd0.isEmpty then [0] else fd0
  sign ++ String.mk (natDigits ip (ip + 1)) ++ "." ++
    String.mk (fd.map fun d => Char.ofNat (48 + d))

/-- Concatenation of cell strings with a separator, as `csv.writer` joins the
cells of one row (no cell written by this module ever needs quoting). -/
def joinSep (sep : String) : List String → String
  | [] => ""
  | [x] => x
  | x :: y :: ys => x ++ sep ++ joinSep sep (y :: ys)

/-- Lines of the file written by `RHS.save_csv`: `csv.writer` is constructed
with `delimiter=';'`, so each RHS row becomes its cells' `str()` forms joined
with `";"`. -/
def save_csv_RHS_lines (D : Dataset) : List String :=
  D.RHS.map fun row => joinSep ";" (row.map ratStr)

/-- Lines of the file written by `solutions.save_csv`: the content is
reshaped to a single column, so each line is one `str()` cell and the
delimiter never appears. -/
def save_csv_sol_lines (D : Dataset) : List String :=
  D.sols.map ratStr

/-- Output of `dataset.to_csv(name, path, single_file=False)`: the pair of
the `name_RHS.csv` file and the `name_sol.csv` file, each modelled as its
list of lines. -/
def to_csv_two_files (D : Dataset) : List String × List String :=
  (save_csv_RHS_lines D, save_csv_sol_lines D)

/-- Splitting of a character list at a separator character, the field
splitting `csv.reader` performs on one line when no quoting is involved. -/
def splitOnChar (sep : Char) : List Char → List (List Char)
  | [] => [[]]
  | c :: cs =>
    if c == sep then [] :: splitOnChar sep cs
    else
      match splitOnChar sep cs with
      | [] => [c] :: []
      | g :: gs => (c :: g) :: gs

/-- Fields `csv.reader` yields for one line when constructed without a
`delimiter` argument, as in `load_csv` and `load_csv_single_file`: the
default delimiter is `","`; an empty line yields an empty row. -/
def readerFields (line : String) : List (List Char) :=
  if line.data.isEmpty then [] else splitOnChar ',' line.data

/-- Numeric value of a digit-character list, most significant first. -/
def digitsVal (cs : List Char) : ℕ :=
  cs.foldl (fun a c => 10 * a + (c.toNat - 48)) 0

/-- Model of Python `float(s)` on the plain decimal syntax
`[sign] digits [. digits]` with at least one digit; `none` models the
`ValueError` raised on any other string (the writer side of this module only
ever produces plain decimals, so scientific notation, `inf`/`nan` and
whitespace trimming are never exercised). -/
def pyFloat (cs0 : List Char) : Option ℚ :=
  let neg : Bool :=
    match cs0 with
    | c :: _ => c == '-'
    | [] => false
  let body :=
    match cs0 with
    | '-' :: rest => rest
    | '+' :: rest => rest
    | _ => cs0
  let sgn : ℤ := if neg then -1 else 1
  match splitOnChar '.' body with
  | [ip] =>
    if !ip.isEmpty && ip.all Char.isDigit then
      some (mkRat (sgn * (digitsVal ip : ℤ)) 1)
    else none
  | [ip, fp] =>
    if !(ip.isEmpty && fp.isEmpty) && ip.all Char.isDigit &&
        fp.all Char.isDigit then
      some (mkRat (sgn * ((digitsVal ip * 10 ^ fp.length + digitsVal fp : ℕ) : ℤ))
        (10 ^ fp.length))
    else none
  | _ => none

/-- One line of the RHS file as read by `load_csv`:
`[float(e) for e in row]`, raising `ValueError` on the first unparsable
field. -/
def parseRow (line : String) : Except PyError (List ℚ) :=
  match (readerFields line).mapM pyFloat with
  | some row => .ok row
  | none => .error .valueError

/-- One line of the solutions file as read by `load_csv`: `float(row[0])`,
raising `IndexError` on an empty row and `ValueError` on an unparsable first
field. -/
def parseSolLine (line : String) : Except PyError ℚ :=
  match readerFields line with
  | [] => .error .indexError
  | f :: _ =>
    match pyFloat f with
    | some v => .ok v
    | none => .error .valueError

/-- Function `load_csv(file_RHS, file_sol)`: parses every row of the RHS file
as a float vector, one float per row of the solutions file, and hands both
lists to the `dataset` constructor.  Each file is modelled as its list of
lines. -/
def load_csv (rhsLines solLines : List String) : Except PyError Dataset := do
  let R ← rhsLines.mapM parseRow
  let S ← solLines.mapM parseSolLine
  mkDataset R S

/-- Final step of `load_csv_single_file` once the float table `content` has
been parsed: `RHS_list = content[:-1]`, `solutions = content[-1]`
(`IndexError` on an empty table), handed to the `dataset` constructor. -/
def buildFromContent (content : List (List ℚ)) : Except PyError Dataset :=
  match content.getLast? with
  | none => .error .indexError
  | some last => mkDataset content.dropLast last

/-- Function `load_csv_single_file(file)`: parses every row as a float
vector, then builds the dataset from the parsed table. -/
def load_csv_single_file (lines : List String) : Except PyError Dataset :=
  match lines.mapM parseRow with
  | .error e => .error e
  | .ok content => buildFromContent content

/-- C6 (evaluation at the failing input): the CSV round-trip fails on the
two-dimensional dataset `[[1.0, 2.0]] / [10.0]`.  `to_csv(single_file=False)`
writes the RHS row as `"1.0;2.0"` (delimiter `";"`), `load_csv` reads it with
the default delimiter `","`, obtains the single field `"1.0;2.0"` and
`float()` raises `ValueError` instead of reproducing the dataset. -/
theorem C6_roundtrip_fails :
    load_csv (to_csv_two_files (Dataset.mk [[(1 : ℚ), 2]] [10])).1
        (to_csv_two_files (Dataset.mk [[(1 : ℚ), 2]] [10])).2 =
      .error .valueError ∧
    save_csv_RHS_lines (Dataset.mk [[(1 : ℚ), 2]] [10]) = ["1.0;2.0"] :=
  ⟨rfl, rfl⟩

/-- C7: whenever every line of the file parses as a float vector and
`load_csv_single_file` returns a dataset, that dataset's RHS rows are all the
parsed rows except the last and its solutions vector is the last parsed row
(a row, not a column). -/
theorem C7_single_file_layout (lines : List String)
    (content : List (List ℚ)) (D : Dataset)
    (hp : lines.mapM parseRow = .ok content)
    (h : load_csv_single_file lines = .ok D) :
    D.RHS = content.dropLast ∧ content.getLast? = some D.sols := by
  unfold load_csv_single_file at h
  rw [hp] at h
  have h2 : buildFromContent content = .ok D := h
  unfold buildFromContent at h2
  cases hl : content.getLast? with
  | none =>
    rw [hl] at h2
    cases h2
  | some last =>
    rw [hl] at h2
    have h3 : mkDataset content.dropLast last = .ok D := h2
    unfold mkDataset at h3
    by_cases hc : last.length = content.dropLast.length
    · rw [if_pos hc] at h3
      cases h3
      exact ⟨rfl, rfl⟩
    · rw [if_neg hc] at h3
      cases h3

theorem C7_single_file_layout_witness :
    (["1.0,2.0", "3.0,4.0", "7.0,8.0"] : List String).mapM parseRow =
      .ok [[(1 : ℚ), 2], [3, 4], [7, 8]] ∧
      load_csv_single_file ["1.0,2.0", "3.0,4.0", "7.0,8.0"] =
        .ok (Dataset.mk [[1, 2], [3, 4]] [7, 8]) ∧
      (Dataset.mk [[(1 : ℚ), 2], [3, 4]] [7, 8]).RHS =
        ([[(1 : ℚ), 2], [3, 4], [7, 8]] : List (List ℚ)).dropLast ∧
      ([[(1 : ℚ), 2], [3, 4], [7, 8]] : List (List ℚ)).getLast? =
        some (Dataset.mk [[(1 : ℚ), 2], [3, 4]] [7, 8]).sols := by
  have h := C7_single_file_layout ["1.0,2.0", "3.0,4.0", "7.0,8.0"]
    [[(1 : ℚ), 2], [3, 4], [7, 8]] (Dataset.mk [[1, 2], [3, 4]] [7, 8]) rfl rfl
  exact ⟨rfl, rfl, h.1, h.2⟩

end LearningLP
